import Mathlib

/-!
Verification development for the RAGChatbot repository.

Each Python module that the claims touch is shallowly embedded in its own
namespace.  External services (Bedrock, Pinecone, OpenSearch, DynamoDB,
Google Search, JIRA) are modelled as parameters of the handler functions:
a handler is a pure function of the service responses it would observe,
and it reports the writes it performs (upserts, history puts, JIRA calls)
and an ordered trace of the external calls it makes.
Scores and embeddings are modelled over the rationals.
-/

namespace RagLambda

/-- A Pinecone match as consumed by the routing agent of
`src/ragchatbotlambda.py`: a similarity score together with the stored
`chunk` and `source` metadata fields. -/
structure Match where
  score : ℚ
  chunk : String
  source : String
deriving DecidableEq, Repr

/-- The routing decision returned by the agent: a route name and the
knowledge-base context chosen for the LLM prompt. -/
structure RouteDecision where
  route : String
  context : String
deriving DecidableEq, Repr

/-- Python truthiness of an optional string (the `best_internal` variable
starts as `None` and an empty string is also falsy). -/
def pyTruthyOpt : Option String → Bool
  | none => false
  | some s => !(s = "")

/-- Accumulator of the single `for match in pinecone_matches` loop in
`ai_agent_route`. -/
structure RouteState where
  internal_chunks : List String
  web_chunks : List String
  best_internal : Option String
  best_internal_score : ℚ
deriving DecidableEq, Repr

/-- One iteration of the loop body of `ai_agent_route`: web chunks and
internal chunks above the threshold are collected, and the best-scoring
non-web chunk is tracked (strict improvement only). -/
def routeStep (score_threshold : ℚ) (st : RouteState) (m : Match) : RouteState :=
  if m.source = "web" then
    if score_threshold ≤ m.score then
      { st with web_chunks := st.web_chunks ++ [m.chunk] }
    else st
  else
    let st1 :=
      if score_threshold ≤ m.score then
        { st with internal_chunks := st.internal_chunks ++ [m.chunk] }
      else st
    if st.best_internal_score < m.score then
      { st1 with best_internal := some m.chunk, best_internal_score := m.score }
    else st1

/-- Embedding of `ai_agent_route(prompt, pinecone_matches, score_threshold)`
from `src/ragchatbotlambda.py`.  The `prompt` argument is unused by the
source function as well.  The literal thresholds 0.4 and 0.2 of the source
are the rationals 2/5 and 1/5. -/
def ai_agent_route (_prompt : String) (pinecone_matches : List Match)
    (score_threshold : ℚ) : RouteDecision :=
  let st := pinecone_matches.foldl (routeStep score_threshold)
    (RouteState.mk [] [] none 0)
  if st.internal_chunks ≠ [] then
    RouteDecision.mk "internal" (String.intercalate "\n---\n" st.internal_chunks)
  else if pyTruthyOpt st.best_internal ∧ mkRat 1 5 < st.best_internal_score then
    RouteDecision.mk "internal" (st.best_internal.getD "")
  else if st.web_chunks ≠ [] then
    RouteDecision.mk "web" (String.intercalate "\n---\n" st.web_chunks)
  else
    RouteDecision.mk "none" ""

/-- Specification-level view: the chunks of all matches whose source is not
"web" and whose score reaches the threshold, in match order. -/
def internalStrong (score_threshold : ℚ) (ms : List Match) : List String :=
  (ms.filter fun m => decide (¬ m.source = "web" ∧ score_threshold ≤ m.score)).map Match.chunk

/-- Specification-level view: the chunks of all matches whose source is
"web" and whose score reaches the threshold, in match order. -/
def webStrong (score_threshold : ℚ) (ms : List Match) : List String :=
  (ms.filter fun m => decide (m.source = "web" ∧ score_threshold ≤ m.score)).map Match.chunk

/-- Specification-level view: the best-scoring non-web chunk (first of
equals), folded from an initial candidate and score exactly as the loop
tracks it. -/
def bestInternal : List Match → Option String → ℚ → Option String × ℚ
  | [], b, s => (b, s)
  | m :: ms, b, s =>
    if ¬ m.source = "web" ∧ s < m.score then bestInternal ms (some m.chunk) m.score
    else bestInternal ms b s

theorem foldl_routeStep_spec (t : ℚ) (ms : List Match) (st : RouteState) :
    ms.foldl (routeStep t) st =
      RouteState.mk (st.internal_chunks ++ internalStrong t ms)
        (st.web_chunks ++ webStrong t ms)
        (bestInternal ms st.best_internal st.best_internal_score).1
        (bestInternal ms st.best_internal st.best_internal_score).2 := by
  induction ms generalizing st with
  | nil =>
    cases st
    simp [internalStrong, webStrong, bestInternal]
  | cons m ms ih =>
    rw [List.foldl_cons, ih]
    by_cases hw : m.source = "web"
    · by_cases hs : t ≤ m.score
      · simp [routeStep, hw, hs, internalStrong, webStrong, bestInternal,
          List.filter_cons, List.append_assoc]
      · simp [routeStep, hw, hs, internalStrong, webStrong, bestInternal,
          List.filter_cons]
    · by_cases hs : t ≤ m.score
      · by_cases hb : st.best_internal_score < m.score
        · simp [routeStep, hw, hs, hb, internalStrong, webStrong, bestInternal,
            List.filter_cons, List.append_assoc]
        · simp [routeStep, hw, hs, hb, internalStrong, webStrong, bestInternal,
            List.filter_cons, List.append_assoc]
      · by_cases hb : st.best_internal_score < m.score
        · simp [routeStep, hw, hs, hb, internalStrong, webStrong, bestInternal,
            List.filter_cons]
        · simp [routeStep, hw, hs, hb, internalStrong, webStrong, bestInternal,
            List.filter_cons]

theorem ai_agent_route_cases (p : String) (ms : List Match) (t : ℚ) :
    ai_agent_route p ms t =
      (if internalStrong t ms ≠ [] then
        RouteDecision.mk "internal" (String.intercalate "\n---\n" (internalStrong t ms))
      else if pyTruthyOpt (bestInternal ms none 0).1 ∧ mkRat 1 5 < (bestInternal ms none 0).2 then
        RouteDecision.mk "internal" ((bestInternal ms none 0).1.getD "")
      else if webStrong t ms ≠ [] then
        RouteDecision.mk "web" (String.intercalate "\n---\n" (webStrong t ms))
      else RouteDecision.mk "none" "") := by
  unfold ai_agent_route
  rw [foldl_routeStep_spec]
  simp

end RagLambda

/-- C1 counterexample: for the single match with score 3/10, empty chunk and
source "internal", the best-scoring non-web chunk has score 3/10 which is
strictly above 0.2 (and below the 0.4 threshold, so no strong chunk exists),
hence the claim demands route "internal"; the code returns route "none"
because the Python condition `best_internal and best_internal_score > 0.2`
is falsy on the empty string. -/
theorem c1_counterexample :
    (mkRat 2 5 = (2 : ℚ)/5) ∧ (mkRat 1 5 = (1 : ℚ)/5) ∧
    (mkRat 2 5 ≤ mkRat 3 10 → False) ∧ (mkRat 1 5 < mkRat 3 10) ∧
    RagLambda.bestInternal [RagLambda.Match.mk (mkRat 3 10) "" "internal"] none 0 =
      (some "", mkRat 3 10) ∧
    (RagLambda.ai_agent_route "q" [RagLambda.Match.mk (mkRat 3 10) "" "internal"] (mkRat 2 5)).route
      = "none" := by
  refine ⟨by norm_num [mkRat, Rat.normalize], by norm_num [mkRat, Rat.normalize], by decide, by decide, by decide, by decide⟩

/-- C1 (amended): on threshold 0.4, `ai_agent_route` returns route
"internal" with the "\n---\n"-join of all non-web chunks scoring at least
0.4 when such a chunk exists; otherwise, when the best-scoring non-web
chunk is a non-empty string and its score is strictly above 0.2, route
"internal" with that single chunk; otherwise, when some web-source chunk
scores at least 0.4, route "web" with the join of those web chunks;
otherwise route "none" with empty context — all decided in the single
fold over the match list. -/
theorem c1_route_cases (p : String) (ms : List RagLambda.Match) :
    (RagLambda.internalStrong (mkRat 2 5) ms ≠ [] →
      RagLambda.ai_agent_route p ms (mkRat 2 5) =
        RagLambda.RouteDecision.mk "internal"
          (String.intercalate "\n---\n" (RagLambda.internalStrong (mkRat 2 5) ms))) ∧
    (∀ c, RagLambda.internalStrong (mkRat 2 5) ms = [] →
      (RagLambda.bestInternal ms none 0).1 = some c → ¬ c = "" →
      mkRat 1 5 < (RagLambda.bestInternal ms none 0).2 →
      RagLambda.ai_agent_route p ms (mkRat 2 5) = RagLambda.RouteDecision.mk "internal" c) ∧
    (RagLambda.internalStrong (mkRat 2 5) ms = [] →
      ¬ (RagLambda.pyTruthyOpt (RagLambda.bestInternal ms none 0).1 = true ∧
          mkRat 1 5 < (RagLambda.bestInternal ms none 0).2) →
      RagLambda.webStrong (mkRat 2 5) ms ≠ [] →
      RagLambda.ai_agent_route p ms (mkRat 2 5) =
        RagLambda.RouteDecision.mk "web"
          (String.intercalate "\n---\n" (RagLambda.webStrong (mkRat 2 5) ms))) ∧
    (RagLambda.internalStrong (mkRat 2 5) ms = [] →
      ¬ (RagLambda.pyTruthyOpt (RagLambda.bestInternal ms none 0).1 = true ∧
          mkRat 1 5 < (RagLambda.bestInternal ms none 0).2) →
      RagLambda.webStrong (mkRat 2 5) ms = [] →
      RagLambda.ai_agent_route p ms (mkRat 2 5) = RagLambda.RouteDecision.mk "none" "") := by
  rw [RagLambda.ai_agent_route_cases]
  refine ⟨fun h1 => by rw [if_pos h1], fun c h1 hb hc hs => ?_, fun h1 h2 h3 => ?_,
    fun h1 h2 h3 => ?_⟩
  · have ht : RagLambda.pyTruthyOpt (RagLambda.bestInternal ms none 0).1 = true := by
      rw [hb]; simpa [RagLambda.pyTruthyOpt] using hc
    rw [if_neg (by simp [h1]), if_pos ⟨ht, hs⟩, hb]
    rfl
  · rw [if_neg (by simp [h1]), if_neg h2, if_pos h3]
  · rw [if_neg (by simp [h1]), if_neg h2, if_neg (by simp [h3])]

/-- C1 witness: a single internal match scoring 1/2 takes the first branch. -/
theorem c1_route_cases_witness :
    RagLambda.ai_agent_route "q" [RagLambda.Match.mk (mkRat 1 2) "hello" "internal"] (mkRat 2 5) =
      RagLambda.RouteDecision.mk "internal"
        (String.intercalate "\n---\n"
          (RagLambda.internalStrong (mkRat 2 5) [RagLambda.Match.mk (mkRat 1 2) "hello" "internal"])) :=
  (c1_route_cases "q" [RagLambda.Match.mk (mkRat 1 2) "hello" "internal"]).1 (by decide)

namespace RagLambda

/-- Embeddings are vectors of rationals (the actual Cohere vectors are
opaque to the control flow being verified). -/
abbrev Embedding := List ℚ

/-- One conversation turn as stored in the DynamoDB history item. -/
structure Turn where
  user : String
  bot : String
deriving DecidableEq, Repr

/-- A record as upserted into the Pinecone index by the web-search
fallback branch of `lambda_handler`. -/
structure PineconeRecord where
  id : String
  values : Option Embedding
  chunk : String
  source : String
  original_question : String
  timestamp : String
deriving DecidableEq, Repr

/-- The JSON body of the chatbot Lambda response: either the error object
or the success object with the model response and the chosen route. -/
inductive ChatBody where
  | err (msg : String)
  | ok (response : String) (route : String)
deriving DecidableEq, Repr

/-- A Lambda response envelope (the constant CORS header is not modelled). -/
structure LambdaResponse where
  statusCode : Nat
  body : ChatBody
deriving DecidableEq, Repr

/-- Labels for the external calls a handler performs, in order. -/
inductive Effect where
  | embedCall
  | pineconeQuery
  | googleCall
  | pineconeUpsert
  | historyGet
  | bedrockInvoke
  | historyPut
deriving DecidableEq, Repr

/-- The external world as observed by one invocation of the chatbot
`lambda_handler`: the Bedrock embedding responses, the Pinecone query
matches, the Google search text, Python `hash`, the current timestamp
string, the DynamoDB history stored under the invocation session id, and
the Bedrock chat model keyed by the full prompt (`Except.error` means the
call or the parsing of its response raised). -/
structure RagEnv where
  embed : String → Option Embedding
  queryMatches : List Match
  googleResult : String
  hashFn : String → Int
  now : String
  storedHistory : List Turn
  model : String → Except String String

/-- Everything one invocation of the chatbot `lambda_handler` produces:
the response, the list of Pinecone upserts it performed, the history list
it put back to DynamoDB (if any), and the trace of external calls. -/
structure RagOut where
  response : LambdaResponse
  upserts : List PineconeRecord
  savedHistory : Option (List Turn)
  effects : List Effect
deriving Repr

/-- The input limit of the Cohere embedding model, from the source. -/
def MAX_EMBEDDING_LENGTH : Nat := 2048

/-- The `history_text` accumulation loop of `lambda_handler`. -/
def historyText (turns : List Turn) : String :=
  turns.foldl (fun acc t => acc ++ "User: " ++ t.user ++ "\nBot: " ++ t.bot ++ "\n") ""

/-- Python `l[-n:]`: the last `n` elements of a list. -/
def takeLast (n : Nat) (l : List α) : List α := l.drop (l.length - n)

/-- Embedding of `lambda_handler(event, context)` from
`src/ragchatbotlambda.py`.  `prompt` is `event.get("prompt", "")` (an
absent prompt is the empty string) and `env.storedHistory` is the history
item stored under `event.get("session_id", "default")`. -/
def lambda_handler (env : RagEnv) (prompt : String) : RagOut :=
  if prompt = "" then
    RagOut.mk (LambdaResponse.mk 400 (ChatBody.err "No prompt provided")) [] none []
  else
    let truncated_prompt := prompt.take MAX_EMBEDDING_LENGTH
    match env.embed truncated_prompt with
    | none =>
      RagOut.mk (LambdaResponse.mk 500 (ChatBody.err "Failed to get embedding for prompt"))
        [] none [Effect.embedCall]
    | some _query_embedding =>
      let agent_decision := ai_agent_route prompt env.queryMatches (mkRat 2 5)
      let step :=
        if agent_decision.route = "none" then
          let kb_context := env.googleResult
          let truncated_context := kb_context.take MAX_EMBEDDING_LENGTH
          (kb_context, "web",
            [PineconeRecord.mk ("web_" ++ toString (env.hashFn truncated_context))
              (env.embed truncated_context) truncated_context "web" prompt env.now],
            [Effect.embedCall, Effect.pineconeQuery, Effect.googleCall,
              Effect.embedCall, Effect.pineconeUpsert])
        else
          (agent_decision.context, agent_decision.route, [],
            [Effect.embedCall, Effect.pineconeQuery])
      let kb_context := step.1
      let route := step.2.1
      let upserts := step.2.2.1
      let effs := step.2.2.2
      let history := env.storedHistory
      let recent_history := takeLast 10 history
      let history_text := historyText recent_history
      let full_prompt :=
        "Conversation so far:\n" ++ history_text ++
        "Route chosen by AI agent: " ++ route ++ "\n" ++
        "Use the following knowledge base context to answer the question.\n" ++
        "Knowledge Base Context:\n" ++ kb_context ++ "\n\n" ++
        "User Question: " ++ prompt
      match env.model full_prompt with
      | Except.ok response_text =>
        RagOut.mk (LambdaResponse.mk 200 (ChatBody.ok response_text route))
          upserts (some (history ++ [Turn.mk prompt response_text]))
          (effs ++ [Effect.historyGet, Effect.bedrockInvoke, Effect.historyPut])
      | Except.error e =>
        RagOut.mk (LambdaResponse.mk 500 (ChatBody.err e))
          upserts none (effs ++ [Effect.historyGet, Effect.bedrockInvoke])

end RagLambda

/-- C2: whenever the routing decision is "none" (prompt present, embedding
obtained), the chatbot handler performs the Google web search, upserts the
search result truncated to its first 2048 characters into Pinecone with
metadata source "web", and any successful response it returns reports
route "web" rather than "none". -/
theorem c2_web_fallback_upsert (env : RagLambda.RagEnv) (prompt : String)
    (emb : RagLambda.Embedding) (hp : ¬ prompt = "")
    (he : env.embed (prompt.take 2048) = some emb)
    (hr : (RagLambda.ai_agent_route prompt env.queryMatches (mkRat 2 5)).route = "none") :
    (RagLambda.lambda_handler env prompt).upserts =
      [RagLambda.PineconeRecord.mk
        ("web_" ++ toString (env.hashFn (env.googleResult.take 2048)))
        (env.embed (env.googleResult.take 2048))
        (env.googleResult.take 2048) "web" prompt env.now] ∧
    RagLambda.Effect.googleCall ∈ (RagLambda.lambda_handler env prompt).effects ∧
    (∀ txt route, (RagLambda.lambda_handler env prompt).response =
        RagLambda.LambdaResponse.mk 200 (RagLambda.ChatBody.ok txt route) →
      route = "web") := by
  have he2 : env.embed (prompt.take RagLambda.MAX_EMBEDDING_LENGTH) = some emb := he
  simp only [RagLambda.lambda_handler, hp, he2, hr, RagLambda.MAX_EMBEDDING_LENGTH,
    if_false, ite_false, ite_true, reduceCtorEq]
  refine ⟨?_, ?_, ?_⟩
  · split
    · simp_all
    · split <;> simp
  · split
    · simp_all
    · split <;> simp
  · intro txt route
    split
    · simp_all
    · split <;> intro h <;> simp_all

/-- C2 witness environment: empty Pinecone matches force route "none". -/
def ragEnvDemo : RagLambda.RagEnv :=
  RagLambda.RagEnv.mk (fun _ => some [1]) [] "gsearch" (fun _ => 0) "ts" []
    (fun _ => Except.ok "resp")

/-- C2 witness: the demo environment takes the web-search fallback. -/
theorem c2_web_fallback_upsert_witness :
    (RagLambda.lambda_handler ragEnvDemo "p").upserts =
      [RagLambda.PineconeRecord.mk
        ("web_" ++ toString (ragEnvDemo.hashFn ((ragEnvDemo.googleResult).take 2048)))
        (ragEnvDemo.embed ((ragEnvDemo.googleResult).take 2048))
        ((ragEnvDemo.googleResult).take 2048) "web" "p" ragEnvDemo.now] ∧
    RagLambda.Effect.googleCall ∈ (RagLambda.lambda_handler ragEnvDemo "p").effects ∧
    (∀ txt route, (RagLambda.lambda_handler ragEnvDemo "p").response =
        RagLambda.LambdaResponse.mk 200 (RagLambda.ChatBody.ok txt route) →
      route = "web") :=
  c2_web_fallback_upsert ragEnvDemo "p" [1] (by decide) rfl (by decide)

/-- C9: a successful chatbot invocation saves, under the session key,
exactly the previously stored history with the one new turn
`{user, bot}` appended; any invocation that does not return 200 (missing
prompt, embedding failure, or an exception during the model call) performs
no history write at all. -/
theorem c9_history_append (env : RagLambda.RagEnv) (prompt : String) :
    (∀ txt route, (RagLambda.lambda_handler env prompt).response =
        RagLambda.LambdaResponse.mk 200 (RagLambda.ChatBody.ok txt route) →
      (RagLambda.lambda_handler env prompt).savedHistory =
        some (env.storedHistory ++ [RagLambda.Turn.mk prompt txt])) ∧
    ((RagLambda.lambda_handler env prompt).response.statusCode ≠ 200 →
      (RagLambda.lambda_handler env prompt).savedHistory = none) := by
  simp only [RagLambda.lambda_handler]
  constructor
  · intro txt route
    split
    · intro h; simp_all
    · split
      · intro h; simp_all
      · split <;> intro h <;> simp_all
  · split
    · intro _; rfl
    · split
      · intro _; rfl
      · split <;> intro h <;> simp_all

/-- C9 witness: in the demo environment the stored history gets the new
turn appended. -/
theorem c9_history_append_witness :
    (RagLambda.lambda_handler ragEnvDemo "p").savedHistory =
      some ([] ++ [RagLambda.Turn.mk "p" "resp"]) :=
  (c9_history_append ragEnvDemo "p").1 "resp" "web" (by decide)

namespace McpDefect

/-- Python `needle in hay` on lists of characters: some window of `hay`
equals `needle`. -/
def listContains (needle hay : List Char) : Bool :=
  (List.range (hay.length + 1)).any fun i =>
    decide ((hay.drop i).take needle.length = needle)

/-- Python `needle in hay` on strings. -/
def pyInStr (needle hay : String) : Bool :=
  listContains needle.toList hay.toList

theorem listContains_iff (needle hay : List Char) :
    listContains needle hay = true ↔ ∃ p q, hay = p ++ needle ++ q := by
  unfold listContains
  rw [List.any_eq_true]
  constructor
  · rintro ⟨i, _, hd⟩
    rw [decide_eq_true_eq] at hd
    refine ⟨hay.take i, hay.drop (i + needle.length), ?_⟩
    conv_lhs => rw [← List.take_append_drop i hay]
    rw [List.append_assoc]
    congr 1
    conv_lhs => rw [← List.take_append_drop needle.length (hay.drop i)]
    rw [hd, List.drop_drop]
  · rintro ⟨p, q, rfl⟩
    refine ⟨p.length, ?_, ?_⟩
    · rw [List.mem_range]
      have hlen : (p ++ needle ++ q).length = p.length + needle.length + q.length := by
        rw [List.length_append, List.length_append]
      omega
    · rw [decide_eq_true_eq, List.append_assoc, List.drop_left, List.take_left]

theorem pyInStr_iff (needle hay : String) :
    pyInStr needle hay = true ↔ ∃ p q, hay.toList = p ++ needle.toList ++ q :=
  listContains_iff needle.toList hay.toList

/-- The defect summary produced by `summarize_failure` in
`mcp_defect_agent/mcp_server_lambda.py`: a title, description and
severity. -/
structure DefectSummary where
  title : String
  description : String
  severity : String
deriving DecidableEq, Repr

/-- The prompt that `summarize_failure` formats for the Bedrock LLM. -/
def summarize_prompt (test_name error stack_trace project_context : String) : String :=
  "A test named '" ++ test_name ++ "' failed.\n" ++
  "Error: " ++ error ++ "\n" ++
  "Stack trace: " ++ stack_trace ++ "\n" ++
  "Relevant project context (requirements, policies, test cases):\n" ++
  project_context ++ "\n" ++
  "Please generate a defect summary with a title, description, and severity (High/Medium/Low). " ++
  "Respond in JSON with keys: title, description, severity."

/-- Embedding of `summarize_failure(test_name, error, stack_trace)` from
`mcp_defect_agent/mcp_server_lambda.py`.  `project_context` is the string
returned by `retrieve_project_context` (whose OpenSearch call is made
before the guarded block), and `llm` maps the formatted prompt to the
parsed summary; `llm` returning `none` models the LLM invocation or the
parsing of its output raising an exception, which the function turns into
the synthesized fallback summary. -/
def summarize_failure (llm : String → Option DefectSummary) (project_context : String)
    (test_name error : String) (stack_trace : Option String) : DefectSummary :=
  let prompt := summarize_prompt test_name error (stack_trace.getD "") project_context
  match llm prompt with
  | some summary => summary
  | none =>
    DefectSummary.mk
      (test_name ++ " failed: " ++ error.take 50)
      ("Test '" ++ test_name ++ "' failed with error: " ++ error ++
        ". Stack trace: " ++ stack_trace.getD "")
      (if pyInStr "500" error then "High" else "Medium")

/-- A defect item as stored in the DynamoDB defect table. -/
structure DefectItem where
  defect_id : String
  test_name : String
  error : String
  stack_trace : Option String
  summary : String
  description : String
  severity : String
  timestamp : String
deriving DecidableEq, Repr

/-- An incoming defect report (the parsed request body). -/
structure DefectReq where
  test_name : String
  error : String
  stack_trace : Option String
deriving DecidableEq, Repr

/-- The JSON body of the defect-agent response. -/
inductive DefectBody where
  | err (msg : String)
  | dup (message : String) (defect_id : String)
  | logged (message : String) (defect : DefectItem) (jira_result : String)
deriving DecidableEq, Repr

/-- The arguments of a `create_jira_issue` call. -/
structure JiraCall where
  summary : String
  description : String
  severity : String
deriving DecidableEq, Repr

/-- The external world of one defect-agent invocation: the DynamoDB scan
contents, the OpenSearch context retrieval (`Except.error` models the
retrieval raising), the LLM parse outcome, the JIRA REST response, and
the timestamp. -/
structure DefectEnv where
  table : List DefectItem
  contextResult : Except String String
  llm : String → Option DefectSummary
  jira : JiraCall → String
  now : String

/-- Everything one defect-agent invocation produces: status code and body,
the table contents after the invocation, and the JIRA issue creations it
performed. -/
structure DefectOut where
  statusCode : Nat
  body : DefectBody
  newTable : List DefectItem
  jiraCalls : List JiraCall
deriving Repr

/-- The duplicate filter of the DynamoDB scan: same `test_name` and same
`error`. -/
def dupPred (req : DefectReq) (d : DefectItem) : Bool :=
  decide (d.test_name = req.test_name ∧ d.error = req.error)

/-- Embedding of `lambda_handler(event, context)` from
`mcp_defect_agent/mcp_server_lambda.py`, after the body extraction: scan
for a duplicate, else summarize (retrieving project context first), log
the defect to DynamoDB and create a JIRA issue. -/
def lambda_handler (env : DefectEnv) (req : DefectReq) : DefectOut :=
  match env.table.filter (dupPred req) with
  | d :: _ =>
    DefectOut.mk 200 (DefectBody.dup "Duplicate defect. Not logged again." d.defect_id)
      env.table []
  | [] =>
    match env.contextResult with
    | Except.error e => DefectOut.mk 500 (DefectBody.err e) env.table []
    | Except.ok project_context =>
      let summary_obj := summarize_failure env.llm project_context
        req.test_name req.error req.stack_trace
      let defect_item := DefectItem.mk (req.test_name ++ "-" ++ env.now)
        req.test_name req.error req.stack_trace
        summary_obj.title summary_obj.description summary_obj.severity env.now
      let jira_result := env.jira
        (JiraCall.mk summary_obj.title summary_obj.description summary_obj.severity)
      DefectOut.mk 200 (DefectBody.logged "Defect logged" defect_item jira_result)
        (env.table ++ [defect_item])
        [JiraCall.mk summary_obj.title summary_obj.description summary_obj.severity]

end McpDefect

/-- C3: when the defect table already holds an item with exactly the
incoming report's `test_name` and `error`, the defect-agent handler
returns 200 with the duplicate message and the `defect_id` of an existing
matching item, leaves the table unchanged, and creates no JIRA issue. -/
theorem c3_duplicate_idempotent (env : McpDefect.DefectEnv) (req : McpDefect.DefectReq)
    (d : McpDefect.DefectItem) (hmem : d ∈ env.table)
    (hname : d.test_name = req.test_name) (herr : d.error = req.error) :
    (McpDefect.lambda_handler env req).statusCode = 200 ∧
    (∃ id, (McpDefect.lambda_handler env req).body =
        McpDefect.DefectBody.dup "Duplicate defect. Not logged again." id ∧
      ∃ d2, d2 ∈ env.table ∧ d2.defect_id = id ∧
        d2.test_name = req.test_name ∧ d2.error = req.error) ∧
    (McpDefect.lambda_handler env req).newTable = env.table ∧
    (McpDefect.lambda_handler env req).jiraCalls = [] := by
  have hne : env.table.filter (McpDefect.dupPred req) ≠ [] := by
    intro h0
    have hd : d ∈ env.table.filter (McpDefect.dupPred req) :=
      List.mem_filter.mpr ⟨hmem, by simp [McpDefect.dupPred, hname, herr]⟩
    rw [h0] at hd
    exact (List.not_mem_nil d) hd
  rcases hfe : env.table.filter (McpDefect.dupPred req) with _ | ⟨d0, rest⟩
  · exact absurd hfe hne
  · have hd0 : d0 ∈ env.table.filter (McpDefect.dupPred req) := by
      rw [hfe]; exact List.mem_cons_self d0 rest
    have hd0m := List.mem_filter.mp hd0
    have hd0p : d0.test_name = req.test_name ∧ d0.error = req.error := by
      have := hd0m.2
      simpa [McpDefect.dupPred] using this
    unfold McpDefect.lambda_handler
    rw [hfe]
    exact ⟨rfl, ⟨d0.defect_id, rfl, d0, hd0m.1, rfl, hd0p.1, hd0p.2⟩, rfl, rfl⟩

/-- C3 witness data: a table already holding the incoming report. -/
def defectItemDemo : McpDefect.DefectItem :=
  McpDefect.DefectItem.mk "t1-ts" "t1" "boom" none "s" "d" "Medium" "ts"

/-- C3 witness environment. -/
def defectEnvDemo : McpDefect.DefectEnv :=
  McpDefect.DefectEnv.mk [defectItemDemo] (Except.ok "ctx") (fun _ => none)
    (fun _ => "jira-created") "ts2"

/-- C3 witness: resubmitting the already-logged (test_name, error) pair
changes nothing. -/
theorem c3_duplicate_idempotent_witness :
    (McpDefect.lambda_handler defectEnvDemo (McpDefect.DefectReq.mk "t1" "boom" none)).statusCode = 200 ∧
    (∃ id, (McpDefect.lambda_handler defectEnvDemo (McpDefect.DefectReq.mk "t1" "boom" none)).body =
        McpDefect.DefectBody.dup "Duplicate defect. Not logged again." id ∧
      ∃ d2, d2 ∈ defectEnvDemo.table ∧ d2.defect_id = id ∧
        d2.test_name = (McpDefect.DefectReq.mk "t1" "boom" none).test_name ∧
        d2.error = (McpDefect.DefectReq.mk "t1" "boom" none).error) ∧
    (McpDefect.lambda_handler defectEnvDemo (McpDefect.DefectReq.mk "t1" "boom" none)).newTable =
      defectEnvDemo.table ∧
    (McpDefect.lambda_handler defectEnvDemo (McpDefect.DefectReq.mk "t1" "boom" none)).jiraCalls = [] :=
  c3_duplicate_idempotent defectEnvDemo (McpDefect.DefectReq.mk "t1" "boom" none)
    defectItemDemo (by decide) rfl rfl

/-- C8: when the LLM summarization call or the parsing of its output
raises (modelled by the `llm` oracle returning `none` on the formatted
prompt), `summarize_failure` returns the synthesized fallback summary:
title `<test_name> failed: <first 50 characters of the error>`, the fixed
description built from test name, error and stack trace, and severity
"High" exactly when the error string contains the substring "500",
"Medium" otherwise. -/
theorem c8_fallback_summary (llm : String → Option McpDefect.DefectSummary)
    (pc tn err : String) (st : Option String)
    (h : llm (McpDefect.summarize_prompt tn err (st.getD "") pc) = none) :
    (McpDefect.summarize_failure llm pc tn err st).title =
      tn ++ " failed: " ++ err.take 50 ∧
    (McpDefect.summarize_failure llm pc tn err st).description =
      "Test '" ++ tn ++ "' failed with error: " ++ err ++ ". Stack trace: " ++ st.getD "" ∧
    ((McpDefect.summarize_failure llm pc tn err st).severity = "High" ↔
      ∃ p q, err.toList = p ++ "500".toList ++ q) ∧
    ((McpDefect.summarize_failure llm pc tn err st).severity = "Medium" ↔
      ¬ ∃ p q, err.toList = p ++ "500".toList ++ q) := by
  have hiff := McpDefect.pyInStr_iff "500" err
  simp only [McpDefect.summarize_failure, h]
  refine ⟨by trivial, by trivial, ?_, ?_⟩
  · by_cases hin : McpDefect.pyInStr "500" err = true
    · rw [if_pos hin]
      exact iff_of_true rfl (hiff.mp hin)
    · rw [if_neg hin]
      exact iff_of_false (by decide) (fun hex => hin (hiff.mpr hex))
  · by_cases hin : McpDefect.pyInStr "500" err = true
    · rw [if_pos hin]
      exact iff_of_false (by decide) (not_not_intro (hiff.mp hin))
    · rw [if_neg hin]
      exact iff_of_true rfl (fun hex => hin (hiff.mpr hex))

/-- C8 witness: a failing LLM call on an error containing "500" yields the
synthesized fallback. -/
theorem c8_fallback_summary_witness :
    (McpDefect.summarize_failure (fun _ => none) "ctx" "t" "http 500 err" none).title =
      "t" ++ " failed: " ++ ("http 500 err").take 50 ∧
    (McpDefect.summarize_failure (fun _ => none) "ctx" "t" "http 500 err" none).description =
      "Test '" ++ "t" ++ "' failed with error: " ++ "http 500 err" ++ ". Stack trace: " ++
        (none : Option String).getD "" ∧
    ((McpDefect.summarize_failure (fun _ => none) "ctx" "t" "http 500 err" none).severity = "High" ↔
      ∃ p q, ("http 500 err").toList = p ++ "500".toList ++ q) ∧
    ((McpDefect.summarize_failure (fun _ => none) "ctx" "t" "http 500 err" none).severity = "Medium" ↔
      ¬ ∃ p q, ("http 500 err").toList = p ++ "500".toList ++ q) :=
  c8_fallback_summary (fun _ => none) "ctx" "t" "http 500 err" none rfl

namespace TCGen

/-- The JSON body of the test-case-generator Lambda response. -/
inductive TCBody where
  | err (msg : String)
  | ok (sessionId : String) (testCases : String) (validationFeedback : String)
deriving DecidableEq, Repr

/-- The response envelope of the test-case generator. -/
structure TCResponse where
  statusCode : Nat
  body : TCBody
deriving DecidableEq, Repr

/-- External calls of the test-case generator, in order. -/
inductive TCEffect where
  | kbRetrieve
  | historyGet
  | bedrockGenerate
  | bedrockValidate
  | historyPut
deriving DecidableEq, Repr

/-- The external world of one test-case-generator invocation: binary
document extraction (docx/pdf; `Except.error` models the extraction
raising), the OpenSearch KB retrieval keyed by the query text
(`Except.error` models `retrieve_kb_context` raising, which the handler
turns into a placeholder context), the stored history for the session,
and the Bedrock model keyed by the prompt (used for both the generation
and the validation calls; `Except.error` models the call raising). -/
structure TCEnv where
  extractBin : String → String → Except String String
  kb : String → Except String String
  storedHistory : List RagLambda.Turn
  model : String → Except String String

/-- Everything one test-case-generator invocation produces. -/
structure TCOut where
  response : TCResponse
  savedHistory : Option (List RagLambda.Turn)
  effects : List TCEffect
deriving Repr

/-- The text-extraction step of the handler: `.txt` passes the document
through, `.docx`/`.pdf` decode and extract (with the exception fallback
string), anything else passes the document through. -/
def extractedText (env : TCEnv) (document filename : String) : String :=
  if filename.endsWith ".txt" then document
  else if filename.endsWith ".docx" || filename.endsWith ".pdf" then
    match env.extractBin filename document with
    | Except.ok t => t
    | Except.error e => "[Could not extract text from " ++ filename ++ ": " ++ e ++ "]"
  else document

/-- The KB-retrieval step with its exception fallback string. -/
def kbContext (env : TCEnv) (query : String) : String :=
  match env.kb query with
  | Except.ok c => c
  | Except.error e => "[Could not retrieve KB context: " ++ e ++ "]"

/-- The generation prompt composed by the handler. -/
def genPrompt (history_text extracted kb_context : String) : String :=
  history_text ++
  "You are an expert QA engineer. Given the following requirements/specifications and relevant context from similar projects, generate high level functional and non-functional test cases and include some typical edge cases also:\n\n" ++
  "Project/Spec:\n" ++ extracted ++ "\n\n" ++
  "Relevant KB Context:\n" ++ kb_context

/-- The validation prompt composed by the handler. -/
def validationPrompt (response_text : String) : String :=
  "You are an expert QA engineer. Review the following test cases for correctness, completeness, and relevance. Point out any issues or improvements.\n\n" ++
  response_text

/-- Embedding of `lambda_handler(event, context)` from
`llmtestcasegenerator/llmtestcasegeneratorlambda.py`, after the body
parsing: `document`, `filename` and `sessionId` are the parsed fields
(an absent document is the empty string). -/
def lambda_handler (env : TCEnv) (document filename sessionId : String) : TCOut :=
  if document = "" then
    TCOut.mk (TCResponse.mk 400 (TCBody.err "No document provided")) none []
  else
    let extracted_text := extractedText env document filename
    let kb_context := kbContext env extracted_text
    let history := env.storedHistory
    let recent_history := RagLambda.takeLast 10 history
    let history_text := RagLambda.historyText recent_history
    let prompt := genPrompt history_text extracted_text kb_context
    match env.model prompt with
    | Except.error e =>
      TCOut.mk (TCResponse.mk 500 (TCBody.err e)) none
        [TCEffect.kbRetrieve, TCEffect.historyGet, TCEffect.bedrockGenerate]
    | Except.ok response_text =>
      match env.model (validationPrompt response_text) with
      | Except.error e =>
        TCOut.mk (TCResponse.mk 500 (TCBody.err e)) none
          [TCEffect.kbRetrieve, TCEffect.historyGet, TCEffect.bedrockGenerate,
            TCEffect.bedrockValidate]
      | Except.ok validation_text =>
        TCOut.mk (TCResponse.mk 200 (TCBody.ok sessionId response_text validation_text))
          (some (history ++ [RagLambda.Turn.mk extracted_text response_text]))
          [TCEffect.kbRetrieve, TCEffect.historyGet, TCEffect.bedrockGenerate,
            TCEffect.bedrockValidate, TCEffect.historyPut]

end TCGen

/-- C5: an empty (or absent, parsed as empty) `prompt` makes the chatbot
handler return 400 with a JSON error body, and an empty (or absent)
`document` makes the test-case-generator handler return 400 with a JSON
error body; in both cases the traced external calls are empty — no
retrieval, embedding or LLM service is invoked. -/
theorem c5_missing_input_400 (env : RagLambda.RagEnv) (tenv : TCGen.TCEnv)
    (filename sessionId : String) :
    (RagLambda.lambda_handler env "").response =
      RagLambda.LambdaResponse.mk 400 (RagLambda.ChatBody.err "No prompt provided") ∧
    (RagLambda.lambda_handler env "").effects = [] ∧
    (TCGen.lambda_handler tenv "" filename sessionId).response =
      TCGen.TCResponse.mk 400 (TCGen.TCBody.err "No document provided") ∧
    (TCGen.lambda_handler tenv "" filename sessionId).effects = [] :=
  ⟨rfl, rfl, rfl, rfl⟩

/-- C6: in each of the three Lambda handlers, an exception raised by the
downstream client call inside the guarded block is caught and turned into
a 500 response whose JSON body carries the exception message: the chatbot
handler when the Bedrock chat invocation raises `e`, the defect-agent
handler when the OpenSearch context retrieval raises `e` (on a
non-duplicate report), and the test-case-generator handler when the
Bedrock generation call raises `e`. -/
theorem c6_exception_500 :
    (∀ (env : RagLambda.RagEnv) (prompt : String) (emb : RagLambda.Embedding) (e : String),
      ¬ prompt = "" → env.embed (prompt.take 2048) = some emb →
      (∀ s, env.model s = Except.error e) →
      (RagLambda.lambda_handler env prompt).response =
        RagLambda.LambdaResponse.mk 500 (RagLambda.ChatBody.err e)) ∧
    (∀ (env : McpDefect.DefectEnv) (req : McpDefect.DefectReq) (e : String),
      (∀ d ∈ env.table, ¬ (d.test_name = req.test_name ∧ d.error = req.error)) →
      env.contextResult = Except.error e →
      (McpDefect.lambda_handler env req).statusCode = 500 ∧
      (McpDefect.lambda_handler env req).body = McpDefect.DefectBody.err e) ∧
    (∀ (tenv : TCGen.TCEnv) (document filename sessionId e : String),
      ¬ document = "" → (∀ s, tenv.model s = Except.error e) →
      (TCGen.lambda_handler tenv document filename sessionId).response =
        TCGen.TCResponse.mk 500 (TCGen.TCBody.err e)) := by
  refine ⟨?_, ?_, ?_⟩
  · intro env prompt emb e hp he hm
    have he2 : env.embed (prompt.take RagLambda.MAX_EMBEDDING_LENGTH) = some emb := he
    simp only [RagLambda.lambda_handler, hp, he2, hm, if_false, ite_false]
  · intro env req e hnd hc
    have hf : env.table.filter (McpDefect.dupPred req) = [] := by
      rw [List.filter_eq_nil_iff]
      intro d hd
      simp [McpDefect.dupPred]
      intro h1
      exact fun h2 => hnd d hd ⟨h1, h2⟩
    unfold McpDefect.lambda_handler
    rw [hf, hc]
    exact ⟨rfl, rfl⟩
  · intro tenv document filename sessionId e hd hm
    simp only [TCGen.lambda_handler, hd, hm, if_false, ite_false]

/-- C6 witness: concrete environments whose downstream calls raise. -/
theorem c6_exception_500_witness :
    (RagLambda.lambda_handler
      (RagLambda.RagEnv.mk (fun _ => some [1]) [] "g" (fun _ => 0) "ts" []
        (fun _ => Except.error "boom")) "p").response =
      RagLambda.LambdaResponse.mk 500 (RagLambda.ChatBody.err "boom") ∧
    (McpDefect.lambda_handler
      (McpDefect.DefectEnv.mk [] (Except.error "oserr") (fun _ => none)
        (fun _ => "j") "ts") (McpDefect.DefectReq.mk "t" "e" none)).statusCode = 500 ∧
    (TCGen.lambda_handler
      (TCGen.TCEnv.mk (fun _ _ => Except.ok "x") (fun _ => Except.ok "kb") []
        (fun _ => Except.error "generr")) "doc" "f.txt" "s").response =
      TCGen.TCResponse.mk 500 (TCGen.TCBody.err "generr") := by
  refine ⟨?_, ?_, ?_⟩
  · exact c6_exception_500.1
      (RagLambda.RagEnv.mk (fun _ => some [1]) [] "g" (fun _ => 0) "ts" []
        (fun _ => Except.error "boom")) "p" [1] "boom" (by decide) rfl (fun _ => rfl)
  · exact (c6_exception_500.2.1
      (McpDefect.DefectEnv.mk [] (Except.error "oserr") (fun _ => none)
        (fun _ => "j") "ts") (McpDefect.DefectReq.mk "t" "e" none) "oserr"
      (by intro d hd; exact absurd hd (List.not_mem_nil d)) rfl).1
  · exact c6_exception_500.2.2
      (TCGen.TCEnv.mk (fun _ _ => Except.ok "x") (fun _ => Except.ok "kb") []
        (fun _ => Except.error "generr")) "doc" "f.txt" "s" "generr" (by decide) (fun _ => rfl)

namespace PineconePre

/-- Outcome of one Bedrock embedding attempt in
`RAGChatbots/Pinecone_Implementation/RAGPreprocessingScript.py`: a parsed
embedding, a `ThrottlingException` ClientError, or any other failure. -/
inductive EmbedOutcome where
  | success (v : List ℚ)
  | throttle
  | failOther (msg : String)
deriving Repr

/-- Embedding of `get_embedding(text, max_retries, delay)`: the attempt
loop, driven by the sequence of attempt outcomes.  The result carries the
returned value (`none` for the "Max retries exceeded" path and the
non-throttling break), the list of sleeps performed (in seconds), and the
number of attempts made. -/
def get_embedding (outcomes : Nat → EmbedOutcome) :
    Nat → Nat → Option (List ℚ) × List Nat × Nat
  | 0, _ => (none, [], 0)
  | fuel + 1, delay =>
    match outcomes 0 with
    | EmbedOutcome.success v => (some v, [], 1)
    | EmbedOutcome.failOther _ => (none, [], 1)
    | EmbedOutcome.throttle =>
      let r := get_embedding (fun i => outcomes (i + 1)) fuel (delay * 2)
      (r.1, delay :: r.2.1, r.2.2 + 1)

theorem get_embedding_attempts_le (outcomes : Nat → EmbedOutcome)
    (fuel delay : Nat) : (get_embedding outcomes fuel delay).2.2 ≤ fuel := by
  induction fuel generalizing outcomes delay with
  | zero => simp [get_embedding]
  | succ n ih =>
    unfold get_embedding
    cases h : outcomes 0 with
    | success v => simp
    | failOther m => simp
    | throttle =>
      have hle := ih (fun i => outcomes (i + 1)) (delay * 2)
      simp only []
      omega

theorem range_map_double (k delay : Nat) :
    (List.range (k + 1)).map (fun i => delay * 2 ^ i) =
      delay :: (List.range k).map (fun i => delay * 2 * 2 ^ i) := by
  rw [List.range_succ_eq_map, List.map_cons, List.map_map]
  simp only [pow_zero, mul_one]
  have hfun : ((fun i => delay * 2 ^ i) ∘ Nat.succ) = fun i => delay * 2 * 2 ^ i := by
    funext i
    simp only [Function.comp_apply, Nat.succ_eq_add_one]
    ring
  rw [hfun]

theorem get_embedding_spec (k : Nat) :
    ∀ (outcomes : Nat → EmbedOutcome) (fuel delay : Nat),
      (∀ j, j < k → outcomes j = EmbedOutcome.throttle) →
      ((∀ v, k < fuel → outcomes k = EmbedOutcome.success v →
        get_embedding outcomes fuel delay =
          (some v, (List.range k).map (fun i => delay * 2 ^ i), k + 1)) ∧
       (∀ m, k < fuel → outcomes k = EmbedOutcome.failOther m →
        get_embedding outcomes fuel delay =
          (none, (List.range k).map (fun i => delay * 2 ^ i), k + 1)) ∧
       (k = fuel →
        get_embedding outcomes fuel delay =
          (none, (List.range k).map (fun i => delay * 2 ^ i), k))) := by
  induction k with
  | zero =>
    intro outcomes fuel delay _
    refine ⟨?_, ?_, ?_⟩
    · intro v hfuel hsucc
      cases fuel with
      | zero => omega
      | succ n => unfold get_embedding; rw [hsucc]; simp
    · intro m hfuel hfail
      cases fuel with
      | zero => omega
      | succ n => unfold get_embedding; rw [hfail]; simp
    · intro hk
      rw [← hk]
      simp [get_embedding]
  | succ k ih =>
    intro outcomes fuel delay hk
    have h0 : outcomes 0 = EmbedOutcome.throttle := hk 0 (by omega)
    have hk2 : ∀ j, j < k → (fun i => outcomes (i + 1)) j = EmbedOutcome.throttle :=
      fun j hj => hk (j + 1) (by omega)
    refine ⟨?_, ?_, ?_⟩
    · intro v hfuel hsucc
      cases fuel with
      | zero => omega
      | succ n =>
        unfold get_embedding
        rw [h0]
        have hr := (ih (fun i => outcomes (i + 1)) n (delay * 2) hk2).1 v
          (by omega) hsucc
        simp only [hr, range_map_double]
    · intro m hfuel hfail
      cases fuel with
      | zero => omega
      | succ n =>
        unfold get_embedding
        rw [h0]
        have hr := (ih (fun i => outcomes (i + 1)) n (delay * 2) hk2).2.1 m
          (by omega) hfail
        simp only [hr, range_map_double]
    · intro hkf
      cases fuel with
      | zero => omega
      | succ n =>
        unfold get_embedding
        rw [h0]
        have hr := (ih (fun i => outcomes (i + 1)) n (delay * 2) hk2).2.2 (by omega)
        simp only [hr, range_map_double]

end PineconePre

/-- C7: the embedding helper of the Pinecone preprocessing script makes at
most `max_retries` attempts; when the first `k` attempts are throttled it
has slept `delay, 2*delay, 4*delay, ...` (so `1, 2, 4, ...` seconds at the
default `delay = 1`); a success at attempt `k` (within the ceiling) ends
the loop immediately with that embedding after `k + 1` attempts; a
non-throttling failure at attempt `k` ends the loop immediately with
`none` after `k + 1` attempts; and when every allowed attempt is throttled
it returns `none` after exactly `max_retries` attempts — the loop always
terminates within the fixed attempt ceiling. -/
theorem c7_retry_bounded (outcomes : Nat → PineconePre.EmbedOutcome)
    (max_retries delay k : Nat)
    (hk : ∀ j, j < k → outcomes j = PineconePre.EmbedOutcome.throttle) :
    (PineconePre.get_embedding outcomes max_retries delay).2.2 ≤ max_retries ∧
    (∀ v, k < max_retries → outcomes k = PineconePre.EmbedOutcome.success v →
      PineconePre.get_embedding outcomes max_retries delay =
        (some v, (List.range k).map (fun i => delay * 2 ^ i), k + 1)) ∧
    (∀ m, k < max_retries → outcomes k = PineconePre.EmbedOutcome.failOther m →
      PineconePre.get_embedding outcomes max_retries delay =
        (none, (List.range k).map (fun i => delay * 2 ^ i), k + 1)) ∧
    (k = max_retries →
      PineconePre.get_embedding outcomes max_retries delay =
        (none, (List.range k).map (fun i => delay * 2 ^ i), k)) :=
  ⟨PineconePre.get_embedding_attempts_le outcomes max_retries delay,
    (PineconePre.get_embedding_spec k outcomes max_retries delay hk).1,
    (PineconePre.get_embedding_spec k outcomes max_retries delay hk).2.1,
    (PineconePre.get_embedding_spec k outcomes max_retries delay hk).2.2⟩

/-- C7 witness outcome sequence: two throttles, then success. -/
def outcomesDemo : Nat → PineconePre.EmbedOutcome
  | 0 => PineconePre.EmbedOutcome.throttle
  | 1 => PineconePre.EmbedOutcome.throttle
  | _ => PineconePre.EmbedOutcome.success [1]

/-- C7 witness: at the default `max_retries = 5`, `delay = 1`, two
throttled attempts sleep 1 then 2 seconds and the third attempt returns
the embedding. -/
theorem c7_retry_bounded_witness :
    PineconePre.get_embedding outcomesDemo 5 1 =
      (some [1], (List.range 2).map (fun i => 1 * 2 ^ i), 2 + 1) ∧
    (List.range 2).map (fun i => 1 * 2 ^ i) = [1, 2] :=
  ⟨(c7_retry_bounded outcomesDemo 5 1 2
      (by intro j hj; interval_cases j <;> rfl)).2.1 [1] (by omega) rfl,
    by rfl⟩

namespace LangchainPre

/-- A chunk document in the OpenSearch index of
`RAGChatbots/Langchain_OpenSearch_Implementation/RAGPreprocessingScript_Langchain.py`,
with its `source` (the S3 key) and `etag` metadata. -/
structure OSChunk where
  source : String
  etag : Option String
  text : String
deriving DecidableEq, Repr

/-- The per-key body of the `for key in keys_to_process` loop of
`process_s3_files`: skip `kb_index.json`; skip the file when the index
already holds a chunk with this source and ETag; otherwise delete every
chunk with this source and append the newly loaded chunks, each tagged
with the source and current ETag.  `loaded` is the list of chunk texts
produced by the loader/splitter for this file, `none` when loading raised
(the `except ... continue` path, which runs after the deletion). -/
def processFile (index : List OSChunk) (key : String) (etag : Option String)
    (loaded : Option (List String)) : List OSChunk :=
  if key = "kb_index.json" then index
  else if index.any fun c => decide (c.source = key ∧ c.etag = etag) then index
  else
    let cleaned := index.filter fun c => !(decide (c.source = key))
    match loaded with
    | none => cleaned
    | some texts => cleaned ++ texts.map fun t => OSChunk.mk key etag t

/-- One record of an S3 event (`event['Records'][i]`): whether it carries
an `s3` entry, and the object key and eTag. -/
structure S3EventRecord where
  hasS3 : Bool
  key : String
  eTag : Option String
deriving DecidableEq, Repr

/-- An S3 event: `records = none` models a dict without a `Records` key. -/
structure S3Event where
  records : Option (List S3EventRecord)
deriving DecidableEq, Repr

/-- The `keys_to_process`/`etags` selection at the top of
`process_s3_files(event)`: event records when an event with `Records` is
passed, otherwise the full `list_objects_v2` bucket listing. -/
def keysEtags (event : Option S3Event) (listing : List (String × Option String)) :
    List (String × Option String) :=
  match event with
  | some e =>
    match e.records with
    | some recs => recs.map fun r => (r.key, r.eTag)
    | none => listing
  | none => listing

/-- Embedding of `process_s3_files(event)`: fold the per-key body over the
selected keys.  `loadedOf` gives the loaded chunk texts per key and
`index` is the OpenSearch index state. -/
def process_s3_files (event : Option S3Event)
    (listing : List (String × Option String))
    (loadedOf : String → Option (List String)) (index : List OSChunk) :
    List OSChunk :=
  (keysEtags event listing).foldl
    (fun idx ke => processFile idx ke.1 ke.2 (loadedOf ke.1)) index

/-- Embedding of `is_s3_trigger(event)`: the event has a `Records` list
whose first record carries an `s3` entry.  (A present but empty `Records`
list would raise an IndexError in the source; it is modelled as `false`.) -/
def is_s3_trigger (event : Option S3Event) : Bool :=
  match event with
  | some e =>
    match e.records with
    | some (r :: _) => r.hasS3
    | some [] => false
    | none => false
  | none => false

/-- The result of `main(event)`: either the S3-content indexing run with
its resulting index, or the webpage-scraping run. -/
inductive MainRun where
  | s3run (result : List OSChunk)
  | webrun
deriving DecidableEq, Repr

/-- Embedding of `main(event)` from the LangChain preprocessing script:
on an S3 trigger it calls `process_s3_files()` — with no argument — and
otherwise processes the webpage list. -/
def main (event : Option S3Event) (listing : List (String × Option String))
    (loadedOf : String → Option (List String)) (index : List OSChunk) : MainRun :=
  if is_s3_trigger event then
    MainRun.s3run (process_s3_files none listing loadedOf index)
  else MainRun.webrun

end LangchainPre

/-- C4: for a processed S3 file (not the skipped `kb_index.json` entry):
if the OpenSearch index already holds a chunk whose source equals the key
and whose etag equals the file's current ETag, the file is skipped and
the index is unchanged; otherwise every existing chunk with that source
is deleted and the file's newly loaded chunks are appended, each carrying
the key as source and the current ETag in its metadata. -/
theorem c4_etag_reconcile (index : List LangchainPre.OSChunk) (key : String)
    (etag : Option String) (texts : List String) (loaded : Option (List String))
    (hk : ¬ key = "kb_index.json") :
    ((∃ c ∈ index, c.source = key ∧ c.etag = etag) →
      LangchainPre.processFile index key etag loaded = index) ∧
    ((¬ ∃ c ∈ index, c.source = key ∧ c.etag = etag) →
      LangchainPre.processFile index key etag (some texts) =
        (index.filter fun c => !(decide (c.source = key))) ++
          texts.map (fun t => LangchainPre.OSChunk.mk key etag t) ∧
      ∀ c ∈ texts.map (fun t => LangchainPre.OSChunk.mk key etag t),
        c.source = key ∧ c.etag = etag) := by
  constructor
  · intro hex
    have hany : (index.any fun c => decide (c.source = key ∧ c.etag = etag)) = true := by
      rw [List.any_eq_true]
      obtain ⟨c, hc, hprop⟩ := hex
      exact ⟨c, hc, by simpa using hprop⟩
    unfold LangchainPre.processFile
    rw [if_neg hk, if_pos hany]
  · intro hnex
    have hany : ¬ ((index.any fun c => decide (c.source = key ∧ c.etag = etag)) = true) := by
      rw [List.any_eq_true]
      rintro ⟨c, hc, hprop⟩
      exact hnex ⟨c, hc, by simpa using hprop⟩
    unfold LangchainPre.processFile
    rw [if_neg hk, if_neg hany]
    refine ⟨rfl, ?_⟩
    intro c hc
    obtain ⟨t, _, rfl⟩ := List.mem_map.mp hc
    exact ⟨rfl, rfl⟩

/-- C4 witness: the skip branch on an already-indexed file and the
reindex branch on a stale index. -/
theorem c4_etag_reconcile_witness :
    LangchainPre.processFile [LangchainPre.OSChunk.mk "a.txt" (some "e1") "old"]
      "a.txt" (some "e1") (some ["new"]) =
      [LangchainPre.OSChunk.mk "a.txt" (some "e1") "old"] ∧
    LangchainPre.processFile [LangchainPre.OSChunk.mk "a.txt" (some "e0") "old"]
      "a.txt" (some "e1") (some ["new"]) =
      (([LangchainPre.OSChunk.mk "a.txt" (some "e0") "old"].filter
          fun c => !(decide (c.source = "a.txt"))) ++
        ["new"].map (fun t => LangchainPre.OSChunk.mk "a.txt" (some "e1") t)) :=
  ⟨(c4_etag_reconcile [LangchainPre.OSChunk.mk "a.txt" (some "e1") "old"]
      "a.txt" (some "e1") ["new"] (some ["new"]) (by decide)).1
      ⟨LangchainPre.OSChunk.mk "a.txt" (some "e1") "old", by decide, rfl, rfl⟩,
    ((c4_etag_reconcile [LangchainPre.OSChunk.mk "a.txt" (some "e0") "old"]
      "a.txt" (some "e1") ["new"] (some ["new"]) (by decide)).2 (by decide)).1⟩

/-- C10: `main` invokes `process_s3_files` with no event argument, so an
S3-triggered run reconciles the full bucket listing (with the listed
ETags); and this genuinely differs from the per-updated-file run that
passing the event would have produced. -/
theorem c10_s3_trigger_full_bucket :
    (∀ (e : LangchainPre.S3Event) (listing : List (String × Option String))
        (loadedOf : String → Option (List String)) (index : List LangchainPre.OSChunk),
      LangchainPre.is_s3_trigger (some e) = true →
      LangchainPre.main (some e) listing loadedOf index =
        LangchainPre.MainRun.s3run
          (LangchainPre.process_s3_files none listing loadedOf index)) ∧
    (∃ (e : LangchainPre.S3Event) (listing : List (String × Option String))
        (loadedOf : String → Option (List String)) (index : List LangchainPre.OSChunk),
      LangchainPre.is_s3_trigger (some e) = true ∧
      LangchainPre.process_s3_files none listing loadedOf index ≠
        LangchainPre.process_s3_files (some e) listing loadedOf index) := by
  constructor
  · intro e listing loadedOf index ht
    unfold LangchainPre.main
    rw [if_pos ht]
  · refine ⟨LangchainPre.S3Event.mk
      (some [LangchainPre.S3EventRecord.mk true "a.txt" none]),
      [("b.txt", none)], fun _ => some ["x"], [], rfl, ?_⟩
    simp only [LangchainPre.process_s3_files, LangchainPre.keysEtags,
      LangchainPre.processFile, List.map, List.foldl]
    decide

/-- C10 witness: the first clause applied at the demo event. -/
theorem c10_s3_trigger_full_bucket_witness :
    LangchainPre.main
      (some (LangchainPre.S3Event.mk
        (some [LangchainPre.S3EventRecord.mk true "a.txt" none])))
      [("b.txt", none)] (fun _ => some ["x"]) [] =
      LangchainPre.MainRun.s3run
        (LangchainPre.process_s3_files none [("b.txt", none)]
          (fun _ => some ["x"]) []) :=
  c10_s3_trigger_full_bucket.1
    (LangchainPre.S3Event.mk (some [LangchainPre.S3EventRecord.mk true "a.txt" none]))
    [("b.txt", none)] (fun _ => some ["x"]) [] rfl
